import Mathlib

/-!
Verification of the concurrent review orchestrator (`code_review.py`).

The Python source is shallowly embedded: pure functions become Lean
functions, the per-line streaming loop becomes a fold over an explicit
list of decoded lines, and the asynchronous orchestration (retry loop,
post-gather result processing) becomes explicit state passing over the
sequence of attempt outcomes.  External collaborators (the `codex`
subprocess, `json.loads`, `textwrap.fill`, the terminal) are modelled as
explicit inputs or function parameters.  Machine integers are `Int`
(Python integers are unbounded), durations measured from the wall clock
are not modelled.
-/

namespace CodeReview

/-! ## JSON values

A `Json` value models the result of Python's `json.loads` on one line of
worker output.  JSON numbers are modelled as integers (`num`); the
reviewer ids and source indices the program manipulates are integral.
Objects are association lists; `json.loads` produces dicts whose keys are
unique (later duplicates overwrite earlier ones during parsing), so
first-match lookup coincides with Python dict lookup. -/

inductive Json where
  | null : Json
  | bool (b : Bool) : Json
  | num (n : Int) : Json
  | str (s : String) : Json
  | arr (elems : List Json) : Json
  | obj (fields : List (String × Json)) : Json
deriving Repr, Inhabited

/-- Python `dict.get(key)`: first (unique) matching key, else `None`. -/
def pyGet : List (String × Json) → String → Option Json
  | [], _ => none
  | (k, v) :: rest, key => if k = key then some v else pyGet rest key

/-- Python truthiness of a decoded JSON value (`if text:`):
`None`, `False`, `0`, `""`, `[]`, `{}` are falsy. -/
def Json.truthy : Json → Bool
  | .null => false
  | .bool b => b
  | .num n => if n = 0 then false else true
  | .str s => if s = "" then false else true
  | .arr elems => if elems.isEmpty then false else true
  | .obj fields => if fields.isEmpty then false else true

/-- `isinstance(x, dict)` on a decoded JSON value. -/
def Json.isObj : Json → Bool
  | .obj _ => true
  | _ => false

/-- `isinstance(x, int)` on a decoded JSON value, together with its
integer value.  Python booleans are instances of `int`
(`True == 1`, `False == 0`), so they pass the check. -/
def pyIntOf : Json → Option Int
  | .num n => some n
  | .bool b => some (if b then 1 else 0)
  | _ => none

/-! ## Python string stripping

`str.strip()` / `str.rstrip()`, embedded as character-list recursion
(restricted to ASCII whitespace, the cases the program's data exercise). -/

def dropLeadingWs : List Char → List Char
  | [] => []
  | c :: rest => if c.isWhitespace then dropLeadingWs rest else c :: rest

/-- Python `str.strip()`: drop whitespace from both ends. -/
def pyStrip (s : String) : String :=
  ((dropLeadingWs ((dropLeadingWs s.data).reverse)).reverse).asString

/-- Python `str.rstrip()`: drop whitespace from the right end. -/
def pyRStrip (s : String) : String :=
  ((dropLeadingWs s.data.reverse).reverse).asString

/-! ## Data structures (`Finding`, `ReviewerResult`, `AggregatedFinding`)

The `Finding` dataclass declares `text: str`; `aggregate_findings`
operates on such string-texted findings.  At the streaming layer the
`text` slot receives whatever JSON value `item.get("text")` returned, so
the worker result carries `RawFinding` with a `Json` text. -/

structure Finding where
  text : String
  iteration : Int
deriving Repr, DecidableEq

/-- A finding as actually collected from the stream: `text` is the raw
JSON value of the event's `text` field (the `Finding` dataclass does not
enforce its `str` annotation at runtime). -/
structure RawFinding where
  text : Json
  iteration : Int
deriving Repr

/-- `ReviewerResult` dataclass.  `duration_seconds` is a wall-clock
measurement and is not modelled. -/
structure ReviewerResult where
  reviewer_id : Int
  findings : List RawFinding
  exit_code : Int
  parse_errors : Nat
  timed_out : Bool
deriving Repr

/-- `AggregatedFinding` TypedDict: `{text, reviewers}`. -/
structure AggregatedFinding where
  text : String
  reviewers : List Int
deriving Repr, DecidableEq

/-! ## Constants -/

def EXIT_NO_FINDINGS : Nat := 0
def EXIT_FINDINGS : Nat := 1
def EXIT_ERROR : Nat := 2
def EXIT_INTERRUPTED : Nat := 130
def MAX_REPORT_WIDTH : Nat := 90
def MAX_RAW_OUTPUT_LINES : Nat := 10

/-! ## Aggregator (`aggregate_findings`)

The Python function builds an insertion-ordered dict
`seen: dict[str, List[int]]`, embedded here as an association list to
which new keys are appended at the end (Python 3.7+ dict semantics). -/

/-- `if f.iteration not in seen[normalized]: seen[normalized].append(...)`. -/
def addReviewer (rs : List Int) (i : Int) : List Int :=
  if i ∈ rs then rs else rs ++ [i]

/-- Insert one (normalized text, reviewer id) pair into the `seen` dict:
update the existing entry in place, or append a fresh entry at the end. -/
def insertFinding : List (String × List Int) → String → Int → List (String × List Int)
  | [], t, i => [(t, [i])]
  | (k, rs) :: rest, t, i =>
      if k = t then (k, addReviewer rs i) :: rest
      else (k, rs) :: insertFinding rest t i

/-- One iteration of the `for f in findings` loop of `aggregate_findings`. -/
def aggStep (seen : List (String × List Int)) (f : Finding) : List (String × List Int) :=
  let normalized := pyStrip f.text
  if normalized = "" then seen else insertFinding seen normalized f.iteration

/-- `aggregate_findings`: group by trimmed non-empty text, then emit one
`AggregatedFinding` per key in insertion order with `sorted(reviewers)`. -/
def aggregate_findings (findings : List Finding) : List AggregatedFinding :=
  (findings.foldl aggStep []).map (fun p => ⟨p.1, p.2.insertionSort (· ≤ ·)⟩)

/-! ## Specification-side helpers

`dedupFirst l` keeps the first occurrence of every element of `l`, in
the order of first occurrence — the reference notion used to state the
aggregation claims. -/

def dedupFirst {α : Type} [DecidableEq α] (l : List α) : List α :=
  l.foldl (fun acc a => if a ∈ acc then acc else acc ++ [a]) []

/-- Invariant tying the `seen` dict to the processed input prefix:
its keys are the distinct trimmed non-empty texts in first-occurrence
order, and each entry holds exactly the (deduplicated) reviewer ids that
produced its text. -/
def SeenInv (fs : List Finding) (seen : List (String × List Int)) : Prop :=
  seen.map Prod.fst
      = dedupFirst ((fs.map (fun f => pyStrip f.text)).filter (fun s => !(s == ""))) ∧
    ∀ p ∈ seen, p.2.Nodup ∧
      ∀ i : Int, i ∈ p.2 ↔ ∃ f ∈ fs, pyStrip f.text = p.1 ∧ f.iteration = i

/-! ## Event Parser and Reviewer Worker (`collect_findings`)

One line of the worker's merged output stream is modelled *after*
`raw_line.decode().strip()` and `json.loads`: either it stripped to the
empty string (skipped), or `json.loads` raised `JSONDecodeError`
(malformed), or it decoded to a `Json` value. -/

inductive Line where
  | blank : Line
  | malformed : Line
  | event (value : Json) : Line
deriving Repr

/-- The effect of processing one line of the stream. `crash` models the
uncaught `AttributeError` raised by `event.get("item")` when the decoded
top-level value is not a dict; it aborts the whole attempt. -/
inductive LineAction where
  | skip : LineAction
  | parseError : LineAction
  | finding (text : Json) : LineAction
  | crash : LineAction
deriving Repr

/-- `== "agent_message"` applied to the result of `item.get("type")`. -/
def isAgentMessageTag : Option Json → Bool
  | some (Json.str s) => if s = "agent_message" then true else false
  | _ => false

/-- Classification of one line, following the body of `read_output`:
blank lines are skipped, undecodable lines count as parse errors, a dict
event whose `item` is a dict with `type == "agent_message"` and truthy
`text` yields a finding, any other dict event is ignored, and a non-dict
event raises (`event.get` on a non-dict). -/
def classify_line : Line → LineAction
  | .blank => .skip
  | .malformed => .parseError
  | .event (.obj fields) =>
      match pyGet fields "item" with
      | some (Json.obj itemFields) =>
          if isAgentMessageTag (pyGet itemFields "type") then
            match pyGet itemFields "text" with
            | some t => if t.truthy then .finding t else .skip
            | none => .skip
          else .skip
      | _ => .skip
  | .event _ => .crash

/-- The streaming loop of `read_output`: accumulates findings in arrival
order and the parse-error count; a crash aborts with the exception
(`Except.error`), discarding the attempt. -/
def processLines (reviewer_id : Int) : List Line → Except Unit (List RawFinding × Nat)
  | [] => .ok ([], 0)
  | line :: rest =>
      match classify_line line with
      | .crash => .error ()
      | .parseError => (processLines reviewer_id rest).map (fun p => (p.1, p.2 + 1))
      | .skip => processLines reviewer_id rest
      | .finding t =>
          (processLines reviewer_id rest).map
            (fun p => (⟨t, reviewer_id⟩ :: p.1, p.2))

/-- `collect_findings`, one reviewer attempt.  `lines` is the complete
output stream the child process would produce and `exitCode` its exit
status (`proc.returncode or 0`).  `timeoutAfter = some n` means the
deadline elapsed after the first `n` lines were read (the `TimeoutError`
branch: `SIGKILL` the process group, `timed_out = True`, sentinel exit
code `-1`); `none` means the stream closed before the deadline.  A crash
while reading propagates as an exception (no result for the attempt). -/
def collect_findings (reviewer_id : Int) (lines : List Line) (exitCode : Int)
    (timeoutAfter : Option Nat) : Except Unit ReviewerResult :=
  match timeoutAfter with
  | none =>
      (processLines reviewer_id lines).map
        (fun p => ⟨reviewer_id, p.1, exitCode, p.2, false⟩)
  | some n =>
      (processLines reviewer_id (lines.take n)).map
        (fun p => ⟨reviewer_id, p.1, -1, p.2, true⟩)

/-! ## Retry Controller (`collect_findings_with_retry`)

The loop `for attempt in range(retries + 1)` with the interrupt check at
the top, the strict `exit_code == 0` success test, and the
`2**attempt`-second backoff sleep (whose cancellation breaks out of the
loop).  The attempts' outcomes, the interrupt flag as observed at the
top of each iteration, and sleep cancellation are explicit inputs. -/

/-- Observable trace of one `collect_findings_with_retry` call:
the returned result (`none` models the `assert result is not None`
failing — an `AssertionError` escapes instead of a result), the indices
of the attempts actually executed, and the backoff sleeps started (in
seconds). -/
structure RetryTrace where
  result : Option ReviewerResult
  attemptsRun : List Nat
  sleeps : List Nat
deriving Repr

/-- The retry loop.  `fuel` is the number of remaining iterations of
`range(retries + 1)` and `k` the current attempt index. -/
def retryLoop (attempts : Nat → ReviewerResult)
    (interruptedAt : Nat → Bool) (sleepCancelled : Nat → Bool)
    (retries : Nat) : Nat → Nat → Option ReviewerResult → RetryTrace
  | 0, _, acc => ⟨acc, [], []⟩
  | fuel + 1, k, acc =>
      if interruptedAt k then ⟨acc, [], []⟩
      else
        let r := attempts k
        if r.exit_code = 0 then ⟨some r, [k], []⟩
        else if k < retries then
          if sleepCancelled k then ⟨some r, [k], [2 ^ k]⟩
          else
            let t := retryLoop attempts interruptedAt sleepCancelled retries fuel (k + 1) (some r)
            ⟨t.result, k :: t.attemptsRun, 2 ^ k :: t.sleeps⟩
        else
          let t := retryLoop attempts interruptedAt sleepCancelled retries fuel (k + 1) (some r)
          ⟨t.result, k :: t.attemptsRun, t.sleeps⟩

/-- `collect_findings_with_retry`: run up to `retries + 1` attempts. -/
def collect_findings_with_retry (retries : Nat) (attempts : Nat → ReviewerResult)
    (interruptedAt : Nat → Bool) (sleepCancelled : Nat → Bool) : RetryTrace :=
  retryLoop attempts interruptedAt sleepCancelled retries (retries + 1) 0 none

/-! ## Orchestrator: post-gather result processing (`run_review`)

After `asyncio.gather(..., return_exceptions=True)` returns (and the
interrupt flag is clear), `run_review` partitions the outcomes and
decides whether to short-circuit to `EXIT_ERROR` before aggregation and
summarization. -/

/-- One element of the `results` list returned by `gather`:
either a task-level exception or a completed `ReviewerResult`. -/
inductive TaskOutcome where
  | exception : TaskOutcome
  | completed (r : ReviewerResult) : TaskOutcome
deriving Repr

/-- The accumulators of the `for result in results` loop. -/
structure GatherStats where
  all_findings : List RawFinding
  parse_errors : Nat
  failed_iters : List Int
  timed_out_iters : List Int
  exception_count : Nat
deriving Repr

/-- The `for result in results` loop of `run_review`: exceptions are
counted and skipped; otherwise the reviewer is classified as timed out
(`timed_out`), failed (`exit_code != 0`), or successful, and its
findings are appended to `all_findings`. -/
def tally : List TaskOutcome → GatherStats
  | [] => ⟨[], 0, [], [], 0⟩
  | .exception :: rest =>
      let s := tally rest
      { s with exception_count := s.exception_count + 1 }
  | .completed r :: rest =>
      let s := tally rest
      { all_findings := r.findings ++ s.all_findings
        parse_errors := r.parse_errors + s.parse_errors
        failed_iters :=
          (if r.timed_out = false ∧ r.exit_code ≠ 0 then [r.reviewer_id] else [])
            ++ s.failed_iters
        timed_out_iters := (if r.timed_out then [r.reviewer_id] else []) ++ s.timed_out_iters
        exception_count := s.exception_count }

/-- An outcome that counts toward the total-failure threshold. -/
def outcomeFailed : TaskOutcome → Bool
  | .exception => true
  | .completed r => r.timed_out || (if r.exit_code = 0 then false else true)

/-- What `run_review` does next after tallying the gathered results:
either it short-circuits to `EXIT_ERROR` ("All reviewers failed") —
`summarize_findings` is never invoked on this branch — or it proceeds to
aggregate `all_findings` and summarize. -/
inductive PostGatherStep where
  | allFailedError (exitCode : Nat) : PostGatherStep
  | proceedToSummarize (all_findings : List RawFinding) : PostGatherStep
deriving Repr

/-- The total-failure check of `run_review`:
`total_failures = len(failed) + len(timed_out) + exception_count`,
short-circuit iff `total_failures >= args.reviewers`. -/
def process_results (totalReviewers : Nat) (results : List TaskOutcome) : PostGatherStep :=
  let s := tally results
  if s.failed_iters.length + s.timed_out_iters.length + s.exception_count ≥ totalReviewers
  then .allFailedError EXIT_ERROR
  else .proceedToSummarize s.all_findings

/-! ## Summarizer Client (`summarize_findings`)

The external clustering engine is one `codex exec` invocation, modelled
by an `EngineRun` record: its exit status, decoded stdout/stderr, and
the result of `json.loads` on the stripped stdout (`none` models
`JSONDecodeError`).  The engine is invoked at most once — there is no
retry loop — and only when the aggregated list is non-empty.
`GroupedFindings` values are raw `Json` (the engine's output is used
unvalidated).  The wall-clock duration component is not modelled. -/

structure EngineRun where
  returncode : Int
  stdoutText : String
  stderrText : String
  decoded : Option Json
deriving Repr

/-- `GroupedFindings(findings=[])`. -/
def emptyGrouped : Json := Json.obj [("findings", Json.arr [])]

/-- The `(grouped, exit_code, stderr, raw_output)` quadruple returned by
`summarize_findings` (duration omitted). -/
structure SummarizeResult where
  grouped : Json
  exit_code : Int
  err : String
  raw : String
deriving Repr

/-- `summarize_findings`.  Note `proc.returncode or 0` is the identity
on the integer exit status (`0 or 0 == 0`; `returncode` is an `int`
after `communicate()`). -/
def summarize_findings (aggregated : List AggregatedFinding) (run : EngineRun) :
    SummarizeResult :=
  if aggregated.isEmpty then ⟨emptyGrouped, 0, "", ""⟩
  else
    let output := pyStrip run.stdoutText
    let stderr := pyStrip run.stderrText
    if output = "" then ⟨emptyGrouped, run.returncode, stderr, output⟩
    else
      match run.decoded with
      | none => ⟨emptyGrouped, 1, "Failed to parse summarizer JSON output.", output⟩
      | some data => ⟨data, run.returncode, stderr, output⟩

/-! ## Terminal formatting (`Colors`, `get_ruler`, `splitlines`) -/

namespace Colors

def RESET : String := "\x1b[0m"
def BOLD : String := "\x1b[1m"
def DIM : String := "\x1b[2m"
def CYAN : String := "\x1b[36m"
def GREEN : String := "\x1b[32m"
def YELLOW : String := "\x1b[33m"
def RED : String := "\x1b[31m"

end Colors

/-- `get_ruler(width, char)` with the default `"─"`. -/
def get_ruler (width : Nat) : String :=
  Colors.DIM ++ String.mk (List.replicate width '─') ++ Colors.RESET

/-- Heavy ruler variant (`get_ruler(width, "━")`). -/
def get_ruler_heavy (width : Nat) : String :=
  Colors.DIM ++ String.mk (List.replicate width '━') ++ Colors.RESET

/-- Python `str.splitlines` restricted to the `\n`, `\r\n` and `\r`
terminators (no trailing empty line for a trailing terminator). -/
def splitlinesAux : List Char → List Char → List (List Char)
  | [], [] => []
  | [], acc => [acc.reverse]
  | '\r' :: '\n' :: rest, acc => acc.reverse :: splitlinesAux rest []
  | '\n' :: rest, acc => acc.reverse :: splitlinesAux rest []
  | '\r' :: rest, acc => acc.reverse :: splitlinesAux rest []
  | c :: rest, acc => splitlinesAux rest (c :: acc)

def pySplitlines (s : String) : List String :=
  (splitlinesAux s.data []).map List.asString

/-! ## Raw excerpts (`collect_source_indices`, `format_raw_findings`) -/

/-- The inner `for source in sources` loop of `collect_source_indices`:
keep `source` iff `isinstance(source, int)` and it was not seen before
(Python's set membership identifies `True`/`False` with `1`/`0`, as does
`pyIntOf`). -/
def csiEntry (acc : List Int) (source : Json) : List Int :=
  match pyIntOf source with
  | some v => if v ∈ acc then acc else acc ++ [v]
  | none => acc

/-- One iteration of the outer loop of `collect_source_indices`:
`group.get("sources", [])` requires `group` to be a dict (otherwise
`AttributeError`), and a non-list `sources` value skips the group. -/
def csiGroup (acc : List Int) (group : Json) : Except Unit (List Int) :=
  match group with
  | .obj fields =>
      match (pyGet fields "sources").getD (Json.arr []) with
      | .arr sources => .ok (sources.foldl csiEntry acc)
      | _ => .ok acc
  | _ => .error ()

/-- `collect_source_indices`. -/
def collect_source_indices (groups : List Json) : Except Unit (List Int) :=
  groups.foldlM csiGroup []

/-- The integer entries of a group's list-valued `sources` field, in
order — the specification-side flattening used to state what
`collect_source_indices` returns. -/
def intEntries (group : Json) : List Int :=
  match group with
  | .obj fields =>
      match (pyGet fields "sources").getD (Json.arr []) with
      | .arr sources => sources.filterMap pyIntOf
      | _ => []
  | _ => []

/-- The five lines `format_raw_findings` emits for one in-range source
index (`entry = aggregated[source]`; `reviewers` is a list by
construction so `reviewer_count = len(reviewers)`). -/
def fr_block (aggregated : List AggregatedFinding) (total_reviewers : Int)
    (idx : Nat) (source : Int) : List String :=
  let entry := aggregated.getD source.toNat ⟨"", []⟩
  ["",
   toString idx ++ ". (" ++ toString entry.reviewers.length ++ "/"
     ++ toString total_reviewers ++ " reviewers)",
   "```",
   pyRStrip entry.text,
   "```"]

/-- The `for idx, source in enumerate(source_indices, start=1)` loop:
out-of-range indices are skipped but still consume their `idx`. -/
def fr_loop (aggregated : List AggregatedFinding) (total_reviewers : Int) :
    List (Nat × Int) → List String
  | [] => []
  | (idx, source) :: rest =>
      if source < 0 ∨ source ≥ (aggregated.length : Int) then
        fr_loop aggregated total_reviewers rest
      else
        fr_block aggregated total_reviewers idx source
          ++ fr_loop aggregated total_reviewers rest

/-- `format_raw_findings`. -/
def format_raw_findings (aggregated : List AggregatedFinding) (source_indices : List Int)
    (total_reviewers : Int) (include_header : Bool) : String :=
  if source_indices = [] then ""
  else
    let lines :=
      (if include_header then ["## Raw findings (verbatim)"] else [])
        ++ fr_loop aggregated total_reviewers (List.enumFrom 1 source_indices)
    pyRStrip (String.intercalate "\n" lines)

/-! ## Report Renderer (`render_report`)

`render_report` builds a list of lines and joins them with `"\n"`.
Three external library pieces are passed as parameters rather than
re-implemented: `wrapFn` models `wrap_text`/`textwrap.fill`
(arguments: text, width, initial indent, subsequent indent), `pyStr`
models Python's builtin `str()` on a decoded JSON value, and
`fmtDuration` models `format_duration` (float formatting).  `termWidth`
is `get_terminal_size().columns`.  The `grouped` value and the elements
of its `findings` list come from the engine unvalidated, so a non-dict
where a dict is required raises (`Except.error`, an `AttributeError`).
The unused `include_info` flag and the dead local `info` are omitted. -/

/-- The block of lines rendered for one finding (the body of
`for idx, finding in enumerate(findings, start=1)`). -/
def rr_finding_block (wrapFn : String → Nat → String → String → String)
    (pyStr : Json → String) (width : Nat) (total_reviewers : Option Int)
    (idxFinding : Nat × Json) : Except Unit (List String) :=
  match idxFinding.2 with
  | .obj f =>
      let title0 := pyStrip (pyStr ((pyGet f "title").getD (Json.str "")))
      let title := if title0 = "" then "Untitled" else title0
      let summary := pyStrip (pyStr ((pyGet f "summary").getD (Json.str "")))
      let messages :=
        match pyGet f "messages" with
        | some (Json.arr ms) => ms
        | _ => []
      let reviewer_count :=
        (pyGet f "reviewer_count").getD ((pyGet f "worker_count").getD (Json.num 0))
      let trTruthy : Bool := match total_reviewers with
        | some t => if t = 0 then false else true
        | none => false
      let confidence :=
        if trTruthy && reviewer_count.truthy then
          " " ++ Colors.DIM ++ "(" ++ pyStr reviewer_count ++ "/"
            ++ toString (total_reviewers.getD 0) ++ " reviewers)" ++ Colors.RESET
        else ""
      .ok (["",
            Colors.YELLOW ++ Colors.BOLD ++ toString idxFinding.1 ++ "." ++ Colors.RESET
              ++ " " ++ Colors.BOLD ++ title ++ Colors.RESET ++ confidence,
            get_ruler width]
        ++ (if summary = "" then [] else [wrapFn summary (width - 3) "   " "   "])
        ++ (if messages.isEmpty then []
            else ["", "   " ++ Colors.DIM ++ "Evidence:" ++ Colors.RESET]
              ++ messages.filterMap (fun m =>
                   let message_text := pyStrip (pyStr m)
                   if message_text = "" then none
                   else some (wrapFn message_text (width - 5)
                     ("   " ++ Colors.DIM ++ "•" ++ Colors.RESET ++ " ") "     "))))
  | _ => .error ()

/-- The timing-statistics block at the end of the report. -/
def rr_timing_lines (fmtDuration : Float → String)
    (wall_clock_duration : Option Float) (reviewer_durations : List Float)
    (summarizer_duration : Option Float) : List String :=
  ["", Colors.DIM ++ "Timing:" ++ Colors.RESET]
    ++ (match wall_clock_duration with
        | some w => ["  " ++ Colors.DIM ++ "reviewers: " ++ fmtDuration w ++ Colors.RESET]
        | none => [])
    ++ (match reviewer_durations with
        | [] => []
        | d :: ds =>
            let mn := ds.foldl min d
            let mx := ds.foldl max d
            let avg := ((d :: ds).foldl (· + ·) 0) / Float.ofNat (d :: ds).length
            ["  " ++ Colors.DIM ++ "  min " ++ fmtDuration mn ++ " / avg "
               ++ fmtDuration avg ++ " / max " ++ fmtDuration mx ++ Colors.RESET])
    ++ (match summarizer_duration with
        | some s => ["  " ++ Colors.DIM ++ "summarizer: " ++ fmtDuration s ++ Colors.RESET]
        | none => [])
    ++ (match wall_clock_duration, summarizer_duration with
        | some w, some s =>
            ["  " ++ Colors.DIM ++ "total: " ++ fmtDuration (w + s) ++ Colors.RESET]
        | _, _ => [])

/-- `render_report`, as the list of lines it joins. -/
def render_report_lines (wrapFn : String → Nat → String → String → String)
    (pyStr : Json → String) (fmtDuration : Float → String) (termWidth : Nat)
    (grouped : Json) (summarize_exit_code : Int) (summarize_stderr : String)
    (summarize_raw : String) (parse_errors : Nat) (failed_iters : List Int)
    (timed_out_iters : List Int) (wall_clock_duration : Option Float)
    (reviewer_durations : List Float) (summarizer_duration : Option Float)
    (total_reviewers : Option Int) (include_warnings : Bool) (include_timing : Bool) :
    Except Unit (List String) :=
  let width := min termWidth MAX_REPORT_WIDTH
  match grouped with
  | .obj gfields =>
      let findings :=
        match pyGet gfields "findings" with
        | some (Json.arr fs) => fs
        | _ => []
      if summarize_exit_code ≠ 0 then
        .ok (["",
              Colors.RED ++ "✗ Summarizer Error" ++ Colors.RESET,
              get_ruler width,
              "  Exit code: " ++ toString summarize_exit_code]
          ++ (if summarize_stderr = "" then [] else ["  Stderr: " ++ summarize_stderr])
          ++ (if summarize_raw = "" then []
              else ("\n  " ++ Colors.DIM ++ "Raw output:" ++ Colors.RESET)
                :: ((pySplitlines summarize_raw).take MAX_RAW_OUTPUT_LINES).map
                     (fun line => "  " ++ Colors.DIM ++ line ++ Colors.RESET)))
      else
        let warnings :=
          (if parse_errors ≠ 0 then ["JSONL parse errors: " ++ toString parse_errors] else [])
            ++ (if failed_iters.isEmpty then []
                else ["Failed reviewers: "
                        ++ String.intercalate ", " (failed_iters.map toString)])
            ++ (if timed_out_iters.isEmpty then []
                else ["Timed out reviewers: "
                        ++ String.intercalate ", " (timed_out_iters.map toString)])
        let warnLines :=
          if include_warnings ∧ ¬warnings.isEmpty then
            ["", Colors.YELLOW ++ "⚠ Warnings" ++ Colors.RESET, get_ruler width]
              ++ warnings.map (fun w =>
                   "  " ++ Colors.YELLOW ++ "•" ++ Colors.RESET ++ " " ++ w)
              ++ [""]
          else []
        if findings.isEmpty then
          .ok (warnLines ++ ["", Colors.GREEN ++ Colors.BOLD ++ "LGTM" ++ Colors.RESET, ""])
        else
          match (List.enumFrom 1 findings).mapM
              (rr_finding_block wrapFn pyStr width total_reviewers) with
          | .error e => .error e
          | .ok blocks =>
              let finding_word := if findings.length = 1 then "finding" else "findings"
              let has_timing := wall_clock_duration.isSome
                || !reviewer_durations.isEmpty || summarizer_duration.isSome
              .ok (warnLines
                ++ ["",
                    Colors.CYAN ++ Colors.BOLD ++ "📋 " ++ toString findings.length
                      ++ " " ++ finding_word ++ Colors.RESET,
                    get_ruler_heavy width]
                ++ blocks.flatten
                ++ ["", get_ruler_heavy width]
                ++ (if include_timing && has_timing then
                      rr_timing_lines fmtDuration wall_clock_duration
                        reviewer_durations summarizer_duration
                    else []))
  | _ => .error ()

/-- `render_report`: the joined report string. -/
def render_report (wrapFn : String → Nat → String → String → String)
    (pyStr : Json → String) (fmtDuration : Float → String) (termWidth : Nat)
    (grouped : Json) (summarize_exit_code : Int) (summarize_stderr : String)
    (summarize_raw : String) (parse_errors : Nat) (failed_iters : List Int)
    (timed_out_iters : List Int) (wall_clock_duration : Option Float)
    (reviewer_durations : List Float) (summarizer_duration : Option Float)
    (total_reviewers : Option Int) (include_warnings : Bool) (include_timing : Bool) :
    Except Unit String :=
  (render_report_lines wrapFn pyStr fmtDuration termWidth grouped summarize_exit_code
      summarize_stderr summarize_raw parse_errors failed_iters timed_out_iters
      wall_clock_duration reviewer_durations summarizer_duration total_reviewers
      include_warnings include_timing).map (String.intercalate "\n")

/-- Trivial wrap function used to instantiate the renderer at concrete
inputs (the real `textwrap.fill` is external). -/
def wrap0 : String → Nat → String → String → String := fun s _ _ _ => s

/-- Trivial `str()` stand-in for concrete instantiations. -/
def pyStr0 : Json → String := fun _ => ""

/-- Trivial duration formatter for concrete instantiations. -/
def fmtD0 : Float → String := fun _ => ""

/-! # Theorems -/

/-! ## Helper lemmas about `dedupFirst` -/

theorem mem_dedupFirst_foldl {α : Type} [DecidableEq α] (l : List α) (init : List α)
    (a : α) :
    (a ∈ l.foldl (fun acc x => if x ∈ acc then acc else acc ++ [x]) init)
      ↔ (a ∈ init ∨ a ∈ l) := by
  induction l generalizing init with
  | nil => simp
  | cons b l ih =>
      simp only [List.foldl_cons]
      by_cases hb : b ∈ init
      · rw [if_pos hb, ih]
        constructor
        · rintro (h | h)
          · exact Or.inl h
          · exact Or.inr (List.mem_cons_of_mem _ h)
        · rintro (h | h)
          · exact Or.inl h
          · rcases List.mem_cons.mp h with rfl | h
            · exact Or.inl hb
            · exact Or.inr h
      · rw [if_neg hb, ih]
        simp only [List.mem_append, List.mem_singleton, List.mem_cons]
        tauto

theorem nodup_dedupFirst_foldl {α : Type} [DecidableEq α] (l : List α) (init : List α)
    (h : init.Nodup) :
    (l.foldl (fun acc x => if x ∈ acc then acc else acc ++ [x]) init).Nodup := by
  induction l generalizing init with
  | nil => exact h
  | cons b l ih =>
      simp only [List.foldl_cons]
      by_cases hb : b ∈ init
      · rw [if_pos hb]; exact ih _ h
      · rw [if_neg hb]
        refine ih _ ?_
        simp [List.nodup_append, h, List.disjoint_singleton, hb]

theorem mem_dedupFirst {α : Type} [DecidableEq α] (l : List α) (a : α) :
    a ∈ dedupFirst l ↔ a ∈ l := by
  unfold dedupFirst
  rw [mem_dedupFirst_foldl]
  simp

theorem nodup_dedupFirst {α : Type} [DecidableEq α] (l : List α) :
    (dedupFirst l).Nodup :=
  nodup_dedupFirst_foldl l [] List.nodup_nil

theorem dedupFirst_append_singleton {α : Type} [DecidableEq α] (l : List α) (a : α) :
    dedupFirst (l ++ [a])
      = if a ∈ dedupFirst l then dedupFirst l else dedupFirst l ++ [a] := by
  unfold dedupFirst
  rw [List.foldl_append]
  rfl

/-! ## Helper lemmas about `addReviewer` and `insertFinding` -/

theorem mem_addReviewer (rs : List Int) (i j : Int) :
    j ∈ addReviewer rs i ↔ j ∈ rs ∨ j = i := by
  unfold addReviewer
  by_cases h : i ∈ rs
  · rw [if_pos h]
    constructor
    · exact Or.inl
    · rintro (hj | rfl)
      · exact hj
      · exact h
  · rw [if_neg h]
    simp

theorem nodup_addReviewer (rs : List Int) (i : Int) (h : rs.Nodup) :
    (addReviewer rs i).Nodup := by
  unfold addReviewer
  by_cases hi : i ∈ rs
  · rw [if_pos hi]; exact h
  · rw [if_neg hi]
    simp [List.nodup_append, h, List.disjoint_singleton, hi]

theorem insertFinding_of_not_mem (S : List (String × List Int)) (t : String) (i : Int)
    (h : t ∉ S.map Prod.fst) : insertFinding S t i = S ++ [(t, [i])] := by
  induction S with
  | nil => rfl
  | cons p S ih =>
      obtain ⟨k, rs⟩ := p
      simp only [List.map_cons, List.mem_cons, not_or] at h
      show (if k = t then _ else _) = _
      rw [if_neg (fun hk => h.1 hk.symm), ih h.2]
      simp

theorem map_updEntry_id (S : List (String × List Int)) (t : String) (i : Int)
    (h : t ∉ S.map Prod.fst) :
    S.map (fun p => if p.1 = t then (p.1, addReviewer p.2 i) else p) = S := by
  induction S with
  | nil => rfl
  | cons p S ih =>
      simp only [List.map_cons, List.mem_cons, not_or] at h
      rw [List.map_cons, if_neg (fun hk => h.1 hk.symm), ih h.2]

theorem insertFinding_of_mem (S : List (String × List Int)) (t : String) (i : Int)
    (hnd : (S.map Prod.fst).Nodup) (h : t ∈ S.map Prod.fst) :
    insertFinding S t i
      = S.map (fun p => if p.1 = t then (p.1, addReviewer p.2 i) else p) := by
  induction S with
  | nil => cases h
  | cons p S ih =>
      obtain ⟨k, rs⟩ := p
      simp only [List.map_cons, List.nodup_cons] at hnd
      by_cases hk : k = t
      · subst hk
        show (if k = k then _ else _) = _
        rw [if_pos rfl, List.map_cons]
        rw [map_updEntry_id S k i hnd.1]
        simp
      · simp only [List.map_cons, List.mem_cons] at h
        rcases h with h | h
        · exact absurd h.symm hk
        · show (if k = t then _ else _) = _
          rw [if_neg hk, ih hnd.2 h, List.map_cons, if_neg hk]

/-! ## The `seen`-dict invariant of `aggregate_findings` -/

theorem bang_beq_empty_iff (s : String) : (!(s == "")) = true ↔ s ≠ "" := by
  simp

theorem seenInv_keys_ne_empty (fs : List Finding) (S : List (String × List Int))
    (h : SeenInv fs S) : ∀ p ∈ S, p.1 ≠ "" := by
  intro p hp
  have hm : p.1 ∈ S.map Prod.fst := List.mem_map_of_mem _ hp
  rw [h.1, mem_dedupFirst] at hm
  exact (bang_beq_empty_iff p.1).mp (List.mem_filter.mp hm).2

theorem seenInv_step (fs : List Finding) (f : Finding) (S : List (String × List Int))
    (h : SeenInv fs S) : SeenInv (fs ++ [f]) (aggStep S f) := by
  obtain ⟨hkeys, hvals⟩ := h
  have hne : ∀ p ∈ S, p.1 ≠ "" := seenInv_keys_ne_empty fs S ⟨hkeys, hvals⟩
  have hFapp :
      ((fs ++ [f]).map (fun f => pyStrip f.text)).filter (fun s => !(s == ""))
        = (fs.map (fun f => pyStrip f.text)).filter (fun s => !(s == ""))
            ++ [pyStrip f.text].filter (fun s => !(s == "")) := by
    rw [List.map_append, List.filter_append]
    rfl
  by_cases hn : pyStrip f.text = ""
  · -- the new finding trims to empty and is dropped
    have hstep : aggStep S f = S := by unfold aggStep; rw [if_pos hn]
    rw [hstep]
    constructor
    · rw [hkeys, hFapp]
      have : [pyStrip f.text].filter (fun s => !(s == "")) = [] := by
        rw [hn]; rfl
      rw [this, List.append_nil]
    · intro p hp
      obtain ⟨hnd, hiff⟩ := hvals p hp
      refine ⟨hnd, fun i => ?_⟩
      rw [hiff i]
      constructor
      · rintro ⟨f', hf', ht, hi⟩
        exact ⟨f', List.mem_append_left _ hf', ht, hi⟩
      · rintro ⟨f', hf', ht, hi⟩
        rcases List.mem_append.mp hf' with hf' | hf'
        · exact ⟨f', hf', ht, hi⟩
        · rw [List.mem_singleton.mp hf'] at ht
          exact absurd (ht ▸ hn) (hne p hp)
  · -- the new finding is kept
    have hfilter : [pyStrip f.text].filter (fun s => !(s == "")) = [pyStrip f.text] := by
      simp [List.filter_cons, (bang_beq_empty_iff _).mpr hn]
    have hkeysnd : (S.map Prod.fst).Nodup := hkeys ▸ nodup_dedupFirst _
    have hstep : aggStep S f = insertFinding S (pyStrip f.text) f.iteration := by
      unfold aggStep; rw [if_neg hn]
    by_cases hmem : pyStrip f.text ∈ S.map Prod.fst
    · -- existing key: the entry is updated in place
      rw [hstep, insertFinding_of_mem S _ _ hkeysnd hmem]
      constructor
      · rw [List.map_map]
        have hcomp :
            (Prod.fst ∘ fun p : String × List Int =>
                if p.1 = pyStrip f.text then (p.1, addReviewer p.2 f.iteration) else p)
              = Prod.fst := by
          funext p
          by_cases hp : p.1 = pyStrip f.text <;> simp [hp]
        rw [hcomp, hkeys, hFapp, hfilter, dedupFirst_append_singleton]
        rw [if_pos (hkeys ▸ hmem)]
      · intro q hq
        obtain ⟨p, hp, hpq⟩ := List.mem_map.mp hq
        obtain ⟨hnd, hiff⟩ := hvals p hp
        by_cases hpt : p.1 = pyStrip f.text
        · -- the updated entry
          rw [if_pos hpt] at hpq
          subst hpq
          refine ⟨nodup_addReviewer _ _ hnd, fun i => ?_⟩
          simp only
          rw [mem_addReviewer, hiff i]
          constructor
          · rintro (⟨f', hf', ht, hi⟩ | rfl)
            · exact ⟨f', List.mem_append_left _ hf', ht, hi⟩
            · exact ⟨f, List.mem_append_right _ (List.mem_singleton_self f),
                hpt.symm, rfl⟩
          · rintro ⟨f', hf', ht, hi⟩
            rcases List.mem_append.mp hf' with hf' | hf'
            · exact Or.inl ⟨f', hf', ht, hi⟩
            · rw [List.mem_singleton.mp hf'] at ht hi
              exact Or.inr hi.symm
        · -- untouched entries
          rw [if_neg hpt] at hpq
          subst hpq
          refine ⟨hnd, fun i => ?_⟩
          rw [hiff i]
          constructor
          · rintro ⟨f', hf', ht, hi⟩
            exact ⟨f', List.mem_append_left _ hf', ht, hi⟩
          · rintro ⟨f', hf', ht, hi⟩
            rcases List.mem_append.mp hf' with hf' | hf'
            · exact ⟨f', hf', ht, hi⟩
            · rw [List.mem_singleton.mp hf'] at ht
              exact absurd (ht ▸ hpt) (fun hc => hc rfl)
    · -- fresh key: a new entry is appended at the end
      rw [hstep, insertFinding_of_not_mem S _ _ hmem]
      constructor
      · rw [List.map_append, hkeys, hFapp, hfilter, dedupFirst_append_singleton]
        rw [if_neg (hkeys ▸ hmem)]
        rfl
      · intro q hq
        rcases List.mem_append.mp hq with hq | hq
        · -- untouched entries
          obtain ⟨hnd, hiff⟩ := hvals q hq
          have hqt : q.1 ≠ pyStrip f.text := by
            intro hc
            exact hmem (hc ▸ List.mem_map_of_mem _ hq)
          refine ⟨hnd, fun i => ?_⟩
          rw [hiff i]
          constructor
          · rintro ⟨f', hf', ht, hi⟩
            exact ⟨f', List.mem_append_left _ hf', ht, hi⟩
          · rintro ⟨f', hf', ht, hi⟩
            rcases List.mem_append.mp hf' with hf' | hf'
            · exact ⟨f', hf', ht, hi⟩
            · rw [List.mem_singleton.mp hf'] at ht
              exact absurd ht.symm hqt
        · -- the new entry
          rw [List.mem_singleton.mp hq]
          refine ⟨List.nodup_singleton _, fun i => ?_⟩
          simp only [List.mem_singleton]
          constructor
          · rintro rfl
            exact ⟨f, List.mem_append_right _ (List.mem_singleton_self f), rfl, rfl⟩
          · rintro ⟨f', hf', ht, hi⟩
            rcases List.mem_append.mp hf' with hf' | hf'
            · exfalso
              apply hmem
              rw [hkeys, mem_dedupFirst, List.mem_filter]
              refine ⟨?_, (bang_beq_empty_iff _).mpr hn⟩
              rw [← ht]
              exact List.mem_map_of_mem _ hf'
            · rw [List.mem_singleton.mp hf'] at hi
              exact hi.symm

/-- The invariant holds for the fully processed input. -/
theorem seenInv_total (fs : List Finding) : SeenInv fs (fs.foldl aggStep []) := by
  induction fs using List.reverseRecOn with
  | nil =>
      constructor
      · rfl
      · intro p hp
        cases hp
  | append_singleton fs f ih =>
      rw [List.foldl_append]
      exact seenInv_step fs f _ ih

/-- Full characterization of `aggregate_findings`: its texts are the
distinct trimmed non-empty input texts in first-occurrence order, and
each entry's reviewers list is the sorted duplicate-free list of the ids
that produced its text. -/
theorem aggregate_findings_char (fs : List Finding) :
    (aggregate_findings fs).map AggregatedFinding.text
        = dedupFirst ((fs.map (fun f => pyStrip f.text)).filter (fun s => !(s == ""))) ∧
      ∀ a ∈ aggregate_findings fs,
        a.reviewers.Sorted (· ≤ ·) ∧ a.reviewers.Nodup ∧
          ∀ i : Int, i ∈ a.reviewers ↔ ∃ f ∈ fs, pyStrip f.text = a.text ∧ f.iteration = i := by
  obtain ⟨hkeys, hvals⟩ := seenInv_total fs
  constructor
  · unfold aggregate_findings
    rw [List.map_map]
    have hcomp : (AggregatedFinding.text ∘ fun p : String × List Int =>
        (⟨p.1, p.2.insertionSort (· ≤ ·)⟩ : AggregatedFinding)) = Prod.fst := rfl
    rw [hcomp, hkeys]
  · intro a ha
    unfold aggregate_findings at ha
    obtain ⟨p, hp, hpa⟩ := List.mem_map.mp ha
    obtain ⟨hnd, hiff⟩ := hvals p hp
    subst hpa
    have hperm := List.perm_insertionSort (· ≤ · : Int → Int → Prop) p.2
    refine ⟨List.sorted_insertionSort _ _, hperm.symm.nodup hnd, fun i => ?_⟩
    show i ∈ p.2.insertionSort (· ≤ ·) ↔ _
    rw [hperm.mem_iff, hiff i]

/-- Transfer of the "some input finding has this text and id" predicate
along a permutation of the input. -/
theorem exists_finding_perm (g₁ g₂ : List Finding) (h : List.Perm g₁ g₂)
    (t : String) (i : Int) :
    (∃ f ∈ g₁, pyStrip f.text = t ∧ f.iteration = i)
      ↔ ∃ f ∈ g₂, pyStrip f.text = t ∧ f.iteration = i := by
  constructor
  · rintro ⟨f, hf, hp⟩
    exact ⟨f, h.mem_iff.mp hf, hp⟩
  · rintro ⟨f, hf, hp⟩
    exact ⟨f, h.mem_iff.mpr hf, hp⟩

/-- One direction of order independence. -/
theorem aggregate_findings_perm_subset (g₁ g₂ : List Finding) (h : List.Perm g₁ g₂)
    (a : AggregatedFinding) (ha : a ∈ aggregate_findings g₁) :
    a ∈ aggregate_findings g₂ := by
  obtain ⟨hkeys₁, hvals₁⟩ := aggregate_findings_char g₁
  obtain ⟨hkeys₂, hvals₂⟩ := aggregate_findings_char g₂
  have hpermF : List.Perm
      ((g₁.map (fun f => pyStrip f.text)).filter (fun s => !(s == "")))
      ((g₂.map (fun f => pyStrip f.text)).filter (fun s => !(s == ""))) :=
    (h.map (fun f => pyStrip f.text)).filter _
  have htext : a.text ∈ (aggregate_findings g₂).map AggregatedFinding.text := by
    rw [hkeys₂, mem_dedupFirst, ← hpermF.mem_iff, ← mem_dedupFirst, ← hkeys₁]
    exact List.mem_map_of_mem _ ha
  obtain ⟨b, hb, hbt⟩ := List.mem_map.mp htext
  obtain ⟨hs₁, hn₁, hi₁⟩ := hvals₁ a ha
  obtain ⟨hs₂, hn₂, hi₂⟩ := hvals₂ b hb
  have hrev : a.reviewers = b.reviewers := by
    refine List.eq_of_perm_of_sorted ?_ hs₁ hs₂
    refine (List.perm_ext_iff_of_nodup hn₁ hn₂).mpr fun i => ?_
    rw [hi₁ i, hi₂ i, hbt, exists_finding_perm g₁ g₂ h]
  have : b = a := by
    cases a
    cases b
    simp only at hbt hrev
    rw [hbt, hrev]
  rw [← this]
  exact hb

/-- Sanity: the spec's scenario — reviewers 1 and 2 report the same
string, reviewer 3 nothing — yields one entry with reviewers `[1, 2]`. -/
example :
    aggregate_findings
        [⟨"missing null check in foo.c:42", 1⟩, ⟨"missing null check in foo.c:42", 2⟩]
      = [⟨"missing null check in foo.c:42", [1, 2]⟩] := by
  decide

/-- C1: for every input list of `Finding` values, `aggregate_findings`
returns exactly one `AggregatedFinding` per distinct trimmed non-empty
text (texts trimming to empty are dropped) — its output texts are
`dedupFirst` of the trimmed non-empty input texts, hence without
duplicates and ordered by first occurrence in the input — and each
entry's reviewers list is exactly the duplicate-free ascending-sorted
set of reviewer ids that produced at least one finding with that
trimmed text. -/
theorem C1_aggregate_findings_spec (fs : List Finding) :
    (aggregate_findings fs).map AggregatedFinding.text
        = dedupFirst ((fs.map (fun f => pyStrip f.text)).filter (fun s => !(s == ""))) ∧
      ∀ a ∈ aggregate_findings fs,
        a.reviewers.Sorted (· ≤ ·) ∧ a.reviewers.Nodup ∧
          ∀ i : Int, i ∈ a.reviewers ↔ ∃ f ∈ fs, pyStrip f.text = a.text ∧ f.iteration = i :=
  aggregate_findings_char fs

/-- C9: `aggregate_findings` is order-independent with respect to the
resulting equivalence classes — inputs that are permutations of the same
multiset of findings produce the same set of `AggregatedFinding` values,
differing at most in the order of the output list. -/
theorem C9_aggregate_findings_order_independent (fs₁ fs₂ : List Finding)
    (h : List.Perm fs₁ fs₂) :
    ∀ a : AggregatedFinding, a ∈ aggregate_findings fs₁ ↔ a ∈ aggregate_findings fs₂ :=
  fun a =>
    ⟨aggregate_findings_perm_subset fs₁ fs₂ h a,
     aggregate_findings_perm_subset fs₂ fs₁ h.symm a⟩

/-! ## Total-failure short-circuit (`run_review`) -/

/-- Under the tally loop, every failing outcome contributes exactly one
unit to `len(failed) + len(timed_out) + exception_count`. -/
theorem tally_failed_count (results : List TaskOutcome)
    (h : ∀ o ∈ results, outcomeFailed o = true) :
    (tally results).failed_iters.length + (tally results).timed_out_iters.length
        + (tally results).exception_count = results.length := by
  induction results with
  | nil => rfl
  | cons o rest ih =>
      have hrest : ∀ o' ∈ rest, outcomeFailed o' = true :=
        fun o' ho' => h o' (List.mem_cons_of_mem _ ho')
      have ho := h o (List.mem_cons_self _ _)
      have ihr := ih hrest
      cases o with
      | exception =>
          simp only [tally, List.length_cons]
          omega
      | completed r =>
          cases htd : r.timed_out with
          | true =>
              simp only [tally, htd, List.length_cons]
              simp
              omega
          | false =>
              have hexit : r.exit_code ≠ 0 := by
                intro hc
                simp only [outcomeFailed, htd, hc] at ho
                simp at ho
              simp only [tally, htd, List.length_cons]
              simp [hexit]
              omega

/-- C2: if `len(failed) + len(timed_out) + exception_count` reaches the
reviewer count, `run_review` short-circuits to the `EXIT_ERROR` (= 2)
outcome without invoking the summarizer (the `allFailedError` branch of
`process_results`, which never reaches `proceedToSummarize`); in
particular, with 5 reviewers all of which fail or time out, the run
returns the error outcome. -/
theorem C2_all_failed_short_circuit :
    EXIT_ERROR = 2 ∧
      (∀ (totalReviewers : Nat) (results : List TaskOutcome),
          (tally results).failed_iters.length + (tally results).timed_out_iters.length
              + (tally results).exception_count ≥ totalReviewers →
          process_results totalReviewers results = .allFailedError EXIT_ERROR) ∧
      ∀ results : List TaskOutcome, results.length = 5 →
        (∀ o ∈ results, outcomeFailed o = true) →
        process_results 5 results = .allFailedError EXIT_ERROR := by
  have hgen : ∀ (n : Nat) (results : List TaskOutcome),
      (tally results).failed_iters.length + (tally results).timed_out_iters.length
          + (tally results).exception_count ≥ n →
      process_results n results = .allFailedError EXIT_ERROR := by
    intro n results h
    unfold process_results
    simp only [ge_iff_le]
    rw [if_pos h]
  refine ⟨rfl, hgen, fun results hlen hfail => ?_⟩
  apply hgen
  rw [tally_failed_count results hfail, hlen]

/-- Witness for C2: five reviewers, a task exception, two timeouts and
two failed exits — the run short-circuits to the error outcome. -/
theorem C2_witness :
    process_results 5
        [.exception,
         .completed ⟨2, [], -1, 0, true⟩,
         .completed ⟨3, [], 3, 0, false⟩,
         .completed ⟨4, [], -1, 2, true⟩,
         .completed ⟨5, [], 1, 0, false⟩]
      = .allFailedError EXIT_ERROR :=
  C2_all_failed_short_circuit.2.2 _ rfl (by decide)

/-! ## Retry Controller lemmas -/

theorem getLast?_cons_of_ne_nil {α : Type} (a : α) (l : List α) (h : l ≠ []) :
    (a :: l).getLast? = l.getLast? := by
  cases l with
  | nil => exact absurd rfl h
  | cons b l => exact List.getLast?_cons_cons

theorem retryLoop_attempts_le (attempts : Nat → ReviewerResult)
    (intr slp : Nat → Bool) (retries : Nat) :
    ∀ (fuel k : Nat) (acc : Option ReviewerResult),
      (retryLoop attempts intr slp retries fuel k acc).attemptsRun.length ≤ fuel := by
  intro fuel
  induction fuel with
  | zero => intro k acc; exact Nat.le_refl 0
  | succ fuel ih =>
      intro k acc
      simp only [retryLoop]
      by_cases h1 : intr k = true
      · rw [if_pos h1]
        exact Nat.zero_le _
      · rw [if_neg h1]
        by_cases h2 : (attempts k).exit_code = 0
        · rw [if_pos h2]
          show 1 ≤ fuel + 1
          omega
        · rw [if_neg h2]
          by_cases h3 : k < retries
          · rw [if_pos h3]
            by_cases h4 : slp k = true
            · rw [if_pos h4]
              show 1 ≤ fuel + 1
              omega
            · rw [if_neg h4]
              exact Nat.succ_le_succ (ih (k + 1) _)
          · rw [if_neg h3]
            exact Nat.succ_le_succ (ih (k + 1) _)

theorem retryLoop_result_last (attempts : Nat → ReviewerResult)
    (intr slp : Nat → Bool) (retries : Nat) :
    ∀ (fuel k : Nat) (acc : Option ReviewerResult), fuel ≠ 0 → intr k = false →
      ∃ j, (retryLoop attempts intr slp retries fuel k acc).attemptsRun.getLast? = some j
        ∧ (retryLoop attempts intr slp retries fuel k acc).result = some (attempts j) := by
  intro fuel
  induction fuel with
  | zero => intro k acc h; exact absurd rfl h
  | succ fuel ih =>
      intro k acc _ hk
      simp only [retryLoop]
      rw [if_neg (by rw [hk]; intro hc; cases hc)]
      by_cases h2 : (attempts k).exit_code = 0
      · rw [if_pos h2]
        exact ⟨k, rfl, rfl⟩
      · rw [if_neg h2]
        have hrec : ∀ hcons : RetryTrace → RetryTrace,
            (∀ t, (hcons t).attemptsRun = k :: t.attemptsRun ∧ (hcons t).result = t.result) →
            ∃ j, (hcons (retryLoop attempts intr slp retries fuel (k + 1)
                    (some (attempts k)))).attemptsRun.getLast? = some j
              ∧ (hcons (retryLoop attempts intr slp retries fuel (k + 1)
                    (some (attempts k)))).result = some (attempts j) := by
          intro hcons hprop
          set t := retryLoop attempts intr slp retries fuel (k + 1) (some (attempts k)) with hT
          obtain ⟨hruns, hres⟩ := hprop t
          by_cases hfuel : fuel = 0
          · subst hfuel
            have ht : t = ⟨some (attempts k), [], []⟩ := hT
            rw [hruns, hres, ht]
            exact ⟨k, rfl, rfl⟩
          · by_cases hintr : intr (k + 1) = true
            · have ht : t = ⟨some (attempts k), [], []⟩ := by
                rw [hT]
                cases fuel with
                | zero => exact absurd rfl hfuel
                | succ fuel => simp only [retryLoop]; rw [if_pos hintr]
              rw [hruns, hres, ht]
              exact ⟨k, rfl, rfl⟩
            · have hintr' : intr (k + 1) = false := by
                cases hc : intr (k + 1)
                · rfl
                · exact absurd hc hintr
              obtain ⟨j, hj1, hj2⟩ := ih (k + 1) (some (attempts k)) hfuel hintr'
              refine ⟨j, ?_, by rw [hres]; exact hj2⟩
              rw [hruns, getLast?_cons_of_ne_nil]
              · exact hj1
              · intro hc
                rw [← hT, hc] at hj1
                cases hj1
        by_cases h3 : k < retries
        · rw [if_pos h3]
          by_cases h4 : slp k = true
          · rw [if_pos h4]
            exact ⟨k, rfl, rfl⟩
          · rw [if_neg h4]
            exact hrec (fun t => ⟨t.result, k :: t.attemptsRun, 2 ^ k :: t.sleeps⟩)
              (fun t => ⟨rfl, rfl⟩)
        · rw [if_neg h3]
          exact hrec (fun t => ⟨t.result, k :: t.attemptsRun, t.sleeps⟩)
            (fun t => ⟨rfl, rfl⟩)

/-- C4 (amended): `collect_findings_with_retry` runs at most
`retries + 1` attempts; when the interrupt flag becomes set after at
least one attempt it stops retrying immediately and returns the last
executed attempt's result as-is; but when the flag is already set before
the first attempt, no attempt runs and no result is produced — the
`assert result is not None` fails with an `AssertionError` instead
(contrary to the claim, the function can fail to produce a result). -/
theorem C4_retry_contract (retries : Nat) (attempts : Nat → ReviewerResult)
    (interruptedAt sleepCancelled : Nat → Bool) :
    (collect_findings_with_retry retries attempts interruptedAt
          sleepCancelled).attemptsRun.length ≤ retries + 1 ∧
      (interruptedAt 0 = true →
        collect_findings_with_retry retries attempts interruptedAt sleepCancelled
          = ⟨none, [], []⟩) ∧
      (interruptedAt 0 = false →
        ∃ k, (collect_findings_with_retry retries attempts interruptedAt
                sleepCancelled).attemptsRun.getLast? = some k
          ∧ (collect_findings_with_retry retries attempts interruptedAt
                sleepCancelled).result = some (attempts k)) := by
  refine ⟨retryLoop_attempts_le attempts interruptedAt sleepCancelled retries _ 0 none,
    fun h => ?_, fun h => ?_⟩
  · unfold collect_findings_with_retry
    simp only [retryLoop]
    rw [if_pos h]
  · exact retryLoop_result_last attempts interruptedAt sleepCancelled retries
      (retries + 1) 0 none (Nat.succ_ne_zero retries) h

/-- Counterexample to C4 as stated: with the interrupt flag already set
before the first attempt, the loop breaks before any attempt with
`result = None`, so the controller produces no `ReviewerResult` (the
`assert result is not None` fails). -/
theorem C4_counterexample :
    (collect_findings_with_retry 2 (fun _ => ⟨1, [], 0, 0, false⟩)
        (fun _ => true) (fun _ => false)).result = none ∧
      (collect_findings_with_retry 2 (fun _ => ⟨1, [], 0, 0, false⟩)
          (fun _ => true) (fun _ => false)).attemptsRun = [] := by
  exact ⟨rfl, rfl⟩

/-- Witness for C4 at concrete inputs with the flag never set. -/
theorem C4_witness :
    (collect_findings_with_retry 1 (fun _ => ⟨1, [], 0, 0, false⟩)
          (fun _ => false) (fun _ => false)).attemptsRun.length ≤ 2 ∧
      ∃ k, (collect_findings_with_retry 1 (fun _ => ⟨1, [], 0, 0, false⟩)
              (fun _ => false) (fun _ => false)).attemptsRun.getLast? = some k
        ∧ (collect_findings_with_retry 1 (fun _ => ⟨1, [], 0, 0, false⟩)
              (fun _ => false) (fun _ => false)).result
            = some ((fun _ => (⟨1, [], 0, 0, false⟩ : ReviewerResult)) k) := by
  obtain ⟨h1, _, h3⟩ := C4_retry_contract 1 (fun _ => ⟨1, [], 0, 0, false⟩)
    (fun _ => false) (fun _ => false)
  exact ⟨h1, h3 rfl⟩

/-- C5: with `retries = 2`, failing attempts 1 and 2 (non-zero exit or
timeout — a timed-out attempt carries the sentinel exit code `-1`) and a
succeeding attempt 3 yield exactly attempt 3's `ReviewerResult` (earlier
attempts' findings are discarded with their results), after backoff
sleeps of `2^0 = 1` and `2^1 = 2` seconds before the second and third
attempts. -/
theorem C5_backoff_and_discard (attempts : Nat → ReviewerResult)
    (hinv : ∀ k, (attempts k).timed_out = true → (attempts k).exit_code = -1)
    (h0 : (attempts 0).exit_code ≠ 0 ∨ (attempts 0).timed_out = true)
    (h1 : (attempts 1).exit_code ≠ 0 ∨ (attempts 1).timed_out = true)
    (h2 : (attempts 2).exit_code = 0) :
    collect_findings_with_retry 2 attempts (fun _ => false) (fun _ => false)
      = ⟨some (attempts 2), [0, 1, 2], [1, 2]⟩ := by
  have e0 : ¬(attempts 0).exit_code = 0 := by
    rcases h0 with h | h
    · exact h
    · rw [hinv 0 h]; decide
  have e1 : ¬(attempts 1).exit_code = 0 := by
    rcases h1 with h | h
    · exact h
    · rw [hinv 1 h]; decide
  unfold collect_findings_with_retry
  simp only [retryLoop]
  norm_num [e0, e1, h2]

/-- Witness for C5 at a concrete attempts function (attempt 1 fails with
exit 1, attempt 2 times out, attempt 3 succeeds). -/
theorem C5_witness :
    collect_findings_with_retry 2
        (fun k => if k = 0 then ⟨7, [], 1, 0, false⟩
          else if k = 1 then ⟨7, [], -1, 0, true⟩
          else ⟨7, [⟨Json.str "ok", 7⟩], 0, 0, false⟩)
        (fun _ => false) (fun _ => false)
      = ⟨some ⟨7, [⟨Json.str "ok", 7⟩], 0, 0, false⟩, [0, 1, 2], [1, 2]⟩ := by
  have := C5_backoff_and_discard
    (fun k => if k = 0 then ⟨7, [], 1, 0, false⟩
      else if k = 1 then ⟨7, [], -1, 0, true⟩
      else ⟨7, [⟨Json.str "ok", 7⟩], 0, 0, false⟩)
    (by intro k
        by_cases hk0 : k = 0
        · simp [hk0]
        · by_cases hk1 : k = 1
          · simp [hk0, hk1]
          · simp [hk0, hk1])
    (by left; decide) (by left; decide) (by decide)
  exact this

/-! ## Reviewer worker: timeout semantics -/

/-- C6: whenever the deadline elapses before the stream closes
(`timeoutAfter = some n`) and the attempt yields a result at all, that
result has `timed_out = true` and the sentinel exit code `-1` —
regardless of how many findings were collected before the deadline — so
it can never satisfy the strict `exit_code == 0` success test; in a
retry-controller run with one retry left, such an attempt is followed by
another attempt rather than returned as a success. -/
theorem C6_timeout_is_failure (reviewer_id : Int) (lines : List Line) (exitCode : Int)
    (n : Nat) (res : ReviewerResult)
    (h : collect_findings reviewer_id lines exitCode (some n) = .ok res) :
    res.timed_out = true ∧ res.exit_code = -1 ∧ res.exit_code ≠ 0 ∧
      ∀ next : ReviewerResult, next.exit_code = 0 →
        (collect_findings_with_retry 1 (fun k => if k = 0 then res else next)
            (fun _ => false) (fun _ => false)).attemptsRun = [0, 1] := by
  simp only [collect_findings] at h
  cases hp : processLines reviewer_id (lines.take n) with
  | error e => rw [hp] at h; cases h
  | ok p =>
      rw [hp] at h
      simp only [Except.map] at h
      cases h
      refine ⟨rfl, rfl, ⟨(by intro hc; cases hc), fun next hnext => ?_⟩⟩
      unfold collect_findings_with_retry
      simp only [retryLoop]
      norm_num [hnext]

/-- Witness for C6: a stream with one finding event and one malformed
line, cut off by the deadline after both lines. -/
theorem C6_witness :
    ((⟨4, [⟨Json.str "hello", 4⟩], -1, 1, true⟩ : ReviewerResult).timed_out = true
        ∧ (⟨4, [⟨Json.str "hello", 4⟩], -1, 1, true⟩ : ReviewerResult).exit_code = -1)
      ∧ (collect_findings_with_retry 1
            (fun k => if k = 0 then (⟨4, [⟨Json.str "hello", 4⟩], -1, 1, true⟩ : ReviewerResult)
              else ⟨4, [], 0, 0, false⟩)
            (fun _ => false) (fun _ => false)).attemptsRun = [0, 1] := by
  have h := C6_timeout_is_failure 4
    [Line.event (Json.obj [("item",
        Json.obj [("type", Json.str "agent_message"), ("text", Json.str "hello")])]),
     Line.malformed]
    0 2 ⟨4, [⟨Json.str "hello", 4⟩], -1, 1, true⟩ rfl
  exact ⟨⟨h.1, h.2.1⟩, h.2.2.2 ⟨4, [], 0, 0, false⟩ rfl⟩

/-! ## Event parser: per-line semantics -/

/-- A decoded object line is classified as a skip or as a finding —
never as a crash or a parse error. -/
theorem classify_obj_cases (fields : List (String × Json)) :
    classify_line (Line.event (Json.obj fields)) = LineAction.skip
      ∨ ∃ t, classify_line (Line.event (Json.obj fields)) = LineAction.finding t := by
  simp only [classify_line]
  repeat' split
  all_goals try exact Or.inl rfl
  all_goals exact Or.inr ⟨_, rfl⟩

/-- C8 (amended): per-line stream semantics.  A malformed line
increments the parse-error counter and the stream continues; a decoded
object whose `item` is an object with `type == "agent_message"` and
truthy (non-empty) `text` is classified as a finding, and a
finding-classified line contributes exactly one finding with that text
and the reviewer's id; any other decoded *object* line is skipped (no
finding, no parse error, no crash); but a well-formed JSON line whose
top-level value is not an object aborts the stream with an uncaught
`AttributeError` — contrary to the claim, it is not silently ignored. -/
theorem C8_line_processing (reviewer_id : Int) (rest : List Line) :
    processLines reviewer_id (Line.malformed :: rest)
        = (processLines reviewer_id rest).map (fun p => (p.1, p.2 + 1)) ∧
      (∀ fields itemFields t,
        pyGet fields "item" = some (Json.obj itemFields) →
        pyGet itemFields "type" = some (Json.str "agent_message") →
        pyGet itemFields "text" = some t → t.truthy = true →
        classify_line (Line.event (Json.obj fields)) = LineAction.finding t) ∧
      (∀ fields t, classify_line (Line.event (Json.obj fields)) = LineAction.finding t →
        processLines reviewer_id (Line.event (Json.obj fields) :: rest)
          = (processLines reviewer_id rest).map
              (fun p => (⟨t, reviewer_id⟩ :: p.1, p.2))) ∧
      (∀ fields, classify_line (Line.event (Json.obj fields)) = LineAction.skip →
        processLines reviewer_id (Line.event (Json.obj fields) :: rest)
          = processLines reviewer_id rest) ∧
      (∀ fields, classify_line (Line.event (Json.obj fields)) ≠ LineAction.crash
        ∧ classify_line (Line.event (Json.obj fields)) ≠ LineAction.parseError) ∧
      ∀ j : Json, j.isObj = false →
        processLines reviewer_id (Line.event j :: rest) = Except.error () := by
  refine ⟨rfl, ?_, ?_, ?_, ?_, ?_⟩
  · intro fields itemFields t hItem hType hText htr
    simp only [classify_line]
    rw [hItem]
    show (if isAgentMessageTag (pyGet itemFields "type") = true then
        (match pyGet itemFields "text" with
          | some t => if t.truthy = true then LineAction.finding t else LineAction.skip
          | none => LineAction.skip)
      else LineAction.skip) = LineAction.finding t
    rw [hType,
      if_pos (show isAgentMessageTag (some (Json.str "agent_message")) = true from rfl),
      hText]
    show (if t.truthy = true then LineAction.finding t else LineAction.skip)
      = LineAction.finding t
    rw [if_pos htr]
  · intro fields t h
    simp only [processLines]
    rw [h]
  · intro fields h
    simp only [processLines]
    rw [h]
  · intro fields
    rcases classify_obj_cases fields with h | ⟨t, h⟩ <;>
      exact ⟨(by rw [h]; intro hc; cases hc), (by rw [h]; intro hc; cases hc)⟩
  · intro j hj
    cases j with
    | obj fields => cases hj
    | null => rfl
    | bool b => rfl
    | num m => rfl
    | str s => rfl
    | arr elems => rfl

/-- Counterexample to C8 as stated: the well-formed JSON line `42`
(top-level value not an object) is classified as a crash and aborts the
stream with an error, rather than being accepted and ignored. -/
theorem C8_counterexample :
    classify_line (Line.event (Json.num 42)) = LineAction.crash
      ∧ processLines 1 [Line.event (Json.num 42)] = Except.error () :=
  ⟨rfl, rfl⟩

/-- Witness for C8: a finding event followed by a malformed line yields
one finding and one parse error. -/
theorem C8_witness :
    processLines 7
        [Line.event (Json.obj [("item",
            Json.obj [("type", Json.str "agent_message"), ("text", Json.str "hi")])]),
         Line.malformed]
      = Except.ok ([⟨Json.str "hi", 7⟩], 1) := by
  obtain ⟨-, hmk, hfind, -, -, -⟩ := C8_line_processing 7 [Line.malformed]
  obtain ⟨hmal, -, -, -, -, -⟩ := C8_line_processing 7 []
  rw [hfind [("item", Json.obj [("type", Json.str "agent_message"),
        ("text", Json.str "hi")])] (Json.str "hi")
      (hmk [("item", Json.obj [("type", Json.str "agent_message"),
          ("text", Json.str "hi")])]
        [("type", Json.str "agent_message"), ("text", Json.str "hi")]
        (Json.str "hi") rfl rfl rfl rfl)]
  rw [hmal]
  rfl

/-! ## Summarizer failure semantics -/

/-- Counterexample to C3 as stated: an empty engine output with engine
exit status 0 is returned with exit-status component 0 — the success
path downstream — not as a summarizer failure. -/
theorem C3_counterexample :
    (summarize_findings [⟨"x", [1]⟩] ⟨0, "", "", none⟩).exit_code = 0
      ∧ pyStrip (EngineRun.mk 0 "" "" none).stdoutText = "" :=
  ⟨rfl, rfl⟩

/-- C3 (amended): when the engine actually runs (non-empty aggregated
input), a non-zero engine exit status always surfaces as a non-zero
returned exit-status component (and the single engine invocation is
never retried — the model invokes it exactly once by construction); an
empty engine output, however, is returned with the engine's own exit
status and empty findings, so it is a failure only when that status is
non-zero, and malformed JSON output is surfaced with exit status 1. -/
theorem C3_summarizer_failure (aggregated : List AggregatedFinding) (run : EngineRun)
    (hne : aggregated ≠ []) :
    (run.returncode ≠ 0 → (summarize_findings aggregated run).exit_code ≠ 0) ∧
      (pyStrip run.stdoutText = "" →
        summarize_findings aggregated run
          = ⟨emptyGrouped, run.returncode, pyStrip run.stderrText, ""⟩) ∧
      (pyStrip run.stdoutText ≠ "" → run.decoded = none →
        (summarize_findings aggregated run).exit_code = 1) := by
  have hemp : aggregated.isEmpty = false := by
    cases aggregated with
    | nil => exact absurd rfl hne
    | cons a l => rfl
  unfold summarize_findings
  rw [hemp]
  simp only [Bool.false_eq_true, if_false]
  by_cases hout : pyStrip run.stdoutText = ""
  · rw [if_pos hout]
    refine ⟨fun h => h, fun _ => by rw [hout], fun hc => absurd hout hc⟩
  · rw [if_neg hout]
    cases hdec : run.decoded with
    | none =>
        refine ⟨fun _ => ?_, fun hc => absurd hc hout, fun _ _ => rfl⟩
        show (1 : Int) ≠ 0
        decide
    | some data =>
        refine ⟨fun h => h, fun hc => absurd hc hout, fun _ hc => ?_⟩
        cases hc

/-- Witness for C3: engine exit 3 with undecodable non-empty output. -/
theorem C3_witness :
    (summarize_findings [⟨"x", [1]⟩] ⟨3, "boom", "", none⟩).exit_code ≠ 0 :=
  (C3_summarizer_failure [⟨"x", [1]⟩] ⟨3, "boom", "", none⟩
    (by intro hc; cases hc)).1 (by decide)

/-! ## Raw excerpt rendering -/

theorem csiEntry_foldl (xs : List Json) (acc : List Int) :
    xs.foldl csiEntry acc
      = (xs.filterMap pyIntOf).foldl
          (fun a v => if v ∈ a then a else a ++ [v]) acc := by
  induction xs generalizing acc with
  | nil => rfl
  | cons x xs ih =>
      simp only [List.foldl_cons, List.filterMap_cons]
      cases hx : pyIntOf x with
      | none =>
          simp only [csiEntry, hx]
          exact ih acc
      | some v =>
          simp only [csiEntry, hx, List.foldl_cons]
          exact ih _

theorem collect_source_indices_foldl (groups : List Json)
    (h : ∀ g ∈ groups, g.isObj = true) :
    ∀ acc : List Int,
      groups.foldlM csiGroup acc
        = .ok ((groups.flatMap intEntries).foldl
            (fun a v => if v ∈ a then a else a ++ [v]) acc) := by
  induction groups with
  | nil => intro acc; rfl
  | cons g gs ih =>
      intro acc
      have hg := h g (List.mem_cons_self _ _)
      have hgs : ∀ g' ∈ gs, g'.isObj = true :=
        fun g' hg' => h g' (List.mem_cons_of_mem _ hg')
      cases g with
      | obj fields =>
          rw [List.foldlM_cons]
          simp only [csiGroup, intEntries, List.flatMap_cons]
          cases hsrc : (pyGet fields "sources").getD (Json.arr []) with
          | arr sources =>
              show (Except.ok (sources.foldl csiEntry acc) >>= fun a =>
                  List.foldlM csiGroup a gs) = _
              show List.foldlM csiGroup (sources.foldl csiEntry acc) gs = _
              rw [ih hgs, csiEntry_foldl, List.foldl_append]
          | null =>
              show List.foldlM csiGroup acc gs = _
              rw [ih hgs]
              rfl
          | bool b =>
              show List.foldlM csiGroup acc gs = _
              rw [ih hgs]
              rfl
          | num m =>
              show List.foldlM csiGroup acc gs = _
              rw [ih hgs]
              rfl
          | str e =>
              show List.foldlM csiGroup acc gs = _
              rw [ih hgs]
              rfl
          | obj o =>
              show List.foldlM csiGroup acc gs = _
              rw [ih hgs]
              rfl
      | null => cases hg
      | bool b => cases hg
      | num m => cases hg
      | str e => cases hg
      | arr elems => cases hg

theorem snd_mem_enumFrom (l : List Int) (n : Nat) (p : Nat × Int)
    (h : p ∈ List.enumFrom n l) : p.2 ∈ l := by
  induction l generalizing n with
  | nil => cases h
  | cons a l ih =>
      rcases List.mem_cons.mp h with rfl | h
      · exact List.mem_cons_self _ _
      · exact List.mem_cons_of_mem _ (ih (n + 1) h)

/-- C10 (amended): rendering of raw excerpts over the engine's
unvalidated output.  For groups that are JSON objects,
`collect_source_indices` skips a non-list `sources` field and every
non-integer entry (Python's integer test admits booleans, `True ↦ 1`,
`False ↦ 0`), and returns each integer index at most once in order of
first occurrence; `fr_loop` (the loop of `format_raw_findings`) renders
exactly the indices within the bounds of the aggregated list, silently
skipping every negative or too-large index, so out-of-range indices
render the bare header rather than failing; but a group that is *not* a
JSON object raises an uncaught `AttributeError` (`group.get` on a
non-dict), contrary to the claim's totality. -/
theorem C10_raw_rendering (groups : List Json) (aggregated : List AggregatedFinding)
    (total_reviewers : Int) (pairs : List (Nat × Int)) :
    ((∀ g ∈ groups, g.isObj = true) →
        collect_source_indices groups = .ok (dedupFirst (groups.flatMap intEntries))) ∧
      (fr_loop aggregated total_reviewers pairs
        = (pairs.filter (fun p =>
              if p.2 < 0 ∨ p.2 ≥ (aggregated.length : Int) then false else true)).flatMap
            (fun p => fr_block aggregated total_reviewers p.1 p.2)) ∧
      ∀ idxs : List Int, idxs ≠ [] →
        (∀ s ∈ idxs, s < 0 ∨ s ≥ (aggregated.length : Int)) →
        format_raw_findings aggregated idxs total_reviewers true
          = "## Raw findings (verbatim)" := by
  have hloop : ∀ ps : List (Nat × Int),
      fr_loop aggregated total_reviewers ps
        = (ps.filter (fun p =>
              if p.2 < 0 ∨ p.2 ≥ (aggregated.length : Int) then false else true)).flatMap
            (fun p => fr_block aggregated total_reviewers p.1 p.2) := by
    intro ps
    induction ps with
    | nil => rfl
    | cons p ps ih =>
        obtain ⟨idx, s⟩ := p
        simp only [fr_loop, List.filter_cons]
        by_cases hs : s < 0 ∨ s ≥ (aggregated.length : Int)
        · have hcf : ¬((if s < 0 ∨ s ≥ (aggregated.length : Int)
              then false else true) = true) := by
            rw [if_pos hs]
            intro hc
            cases hc
          rw [if_pos hs, ih, if_neg hcf]
        · have hct : (if s < 0 ∨ s ≥ (aggregated.length : Int)
              then false else true) = true := by
            rw [if_neg hs]
          rw [if_neg hs, ih, if_pos hct, List.flatMap_cons]
  refine ⟨fun h => ?_, hloop pairs, fun idxs hne hout => ?_⟩
  · unfold collect_source_indices dedupFirst
    exact collect_source_indices_foldl groups h []
  · unfold format_raw_findings
    rw [if_neg hne]
    have : fr_loop aggregated total_reviewers (List.enumFrom 1 idxs) = [] := by
      rw [hloop]
      have hfil : (List.enumFrom 1 idxs).filter (fun p =>
          if p.2 < 0 ∨ p.2 ≥ (aggregated.length : Int) then false else true) = [] := by
        rw [List.filter_eq_nil_iff]
        intro p hp
        rw [if_pos (hout p.2 (snd_mem_enumFrom idxs 1 p hp))]
        intro hc
        cases hc
      rw [hfil]
      rfl
    rw [this]
    rfl

/-- Counterexample to C10 as stated: a group that is not a JSON object
(here the number `3`) makes `collect_source_indices` raise an uncaught
`AttributeError` (`group.get` on a non-dict) instead of being skipped,
so rendering is not total over arbitrary engine output. -/
theorem C10_counterexample :
    collect_source_indices [Json.num 3] = Except.error () := rfl

/-- Witness for C10: object groups with mixed `sources` entries (an
`int`, a boolean — which Python counts as the integer 1 — a string, a
duplicate, another `int`) and a group whose `sources` is not a list;
plus an all-out-of-range index list rendering the bare header. -/
theorem C10_witness :
    (collect_source_indices
          [Json.obj [("sources", Json.arr
              [Json.num 0, Json.bool true, Json.str "x", Json.num 0, Json.num 2])],
           Json.obj [("sources", Json.str "nope")]]
        = .ok (dedupFirst
            ([Json.obj [("sources", Json.arr
                [Json.num 0, Json.bool true, Json.str "x", Json.num 0, Json.num 2])],
              Json.obj [("sources", Json.str "nope")]].flatMap intEntries)))
      ∧ dedupFirst
          ([Json.obj [("sources", Json.arr
              [Json.num 0, Json.bool true, Json.str "x", Json.num 0, Json.num 2])],
            Json.obj [("sources", Json.str "nope")]].flatMap intEntries) = [0, 1, 2]
      ∧ format_raw_findings [] [5] 3 true = "## Raw findings (verbatim)" := by
  obtain ⟨h1, -, h3⟩ := C10_raw_rendering
    [Json.obj [("sources", Json.arr
        [Json.num 0, Json.bool true, Json.str "x", Json.num 0, Json.num 2])],
     Json.obj [("sources", Json.str "nope")]]
    ([] : List AggregatedFinding) 3 []
  refine ⟨h1 ?_, by decide, h3 [5] (by intro hc; cases hc) (by decide)⟩
  intro g hg
  rcases List.mem_cons.mp hg with rfl | hg
  · rfl
  · rcases List.mem_cons.mp hg with rfl | hg
    · rfl
    · cases hg

/-! ## Report Renderer: summarizer failure -/

/-- C7 (amended): when the summarizer fails (non-zero summarizer exit
status) the run still renders a report with a dedicated error section
containing the exit code and an excerpt of the raw output bounded to at
most `MAX_RAW_OUTPUT_LINES = 10` lines; but the aggregate warnings
(parse-error count, failed reviewer ids, timed-out reviewer ids) are
*not* surfaced — `render_report` returns from the error section before
the warnings section, so the report is independent of those inputs and
they are lost, contrary to the claim. -/
theorem C7_summarizer_error_report
    (wrapFn : String → Nat → String → String → String) (pyStr : Json → String)
    (fmtDuration : Float → String) (termWidth : Nat) (grouped : Json)
    (summarize_exit_code : Int) (summarize_stderr summarize_raw : String)
    (wall_clock_duration : Option Float) (reviewer_durations : List Float)
    (summarizer_duration : Option Float) (total_reviewers : Option Int)
    (include_warnings include_timing : Bool)
    (hobj : grouped.isObj = true) (hec : summarize_exit_code ≠ 0) :
    ∃ ls : List String,
      (∀ (parse_errors : Nat) (failed_iters timed_out_iters : List Int),
        render_report_lines wrapFn pyStr fmtDuration termWidth grouped
            summarize_exit_code summarize_stderr summarize_raw parse_errors
            failed_iters timed_out_iters wall_clock_duration reviewer_durations
            summarizer_duration total_reviewers include_warnings include_timing
          = .ok ls)
      ∧ ("  Exit code: " ++ toString summarize_exit_code) ∈ ls
      ∧ ls.length ≤ 6 + MAX_RAW_OUTPUT_LINES := by
  cases grouped with
  | null => cases hobj
  | bool b => cases hobj
  | num m => cases hobj
  | str e => cases hobj
  | arr elems => cases hobj
  | obj gfields =>
      refine ⟨["",
          Colors.RED ++ "✗ Summarizer Error" ++ Colors.RESET,
          get_ruler (min termWidth MAX_REPORT_WIDTH),
          "  Exit code: " ++ toString summarize_exit_code]
        ++ (if summarize_stderr = "" then [] else ["  Stderr: " ++ summarize_stderr])
        ++ (if summarize_raw = "" then []
            else ("\n  " ++ Colors.DIM ++ "Raw output:" ++ Colors.RESET)
              :: ((pySplitlines summarize_raw).take MAX_RAW_OUTPUT_LINES).map
                   (fun line => "  " ++ Colors.DIM ++ line ++ Colors.RESET)),
        fun parse_errors failed_iters timed_out_iters => ?_, ?_, ?_⟩
      · simp only [render_report_lines]
        rw [if_pos hec]
      · apply List.mem_append_left
        apply List.mem_append_left
        simp
      · have h1 : (if summarize_stderr = "" then ([] : List String)
            else ["  Stderr: " ++ summarize_stderr]).length ≤ 1 := by
          by_cases h : summarize_stderr = ""
          · rw [if_pos h]
            simp
          · rw [if_neg h]
            simp
        have h2 : (if summarize_raw = "" then ([] : List String)
            else ("\n  " ++ Colors.DIM ++ "Raw output:" ++ Colors.RESET)
              :: ((pySplitlines summarize_raw).take MAX_RAW_OUTPUT_LINES).map
                   (fun line => "  " ++ Colors.DIM ++ line ++ Colors.RESET)).length
            ≤ 1 + MAX_RAW_OUTPUT_LINES := by
          by_cases h : summarize_raw = ""
          · rw [if_pos h]
            simp
          · rw [if_neg h]
            simp only [List.length_cons, List.length_map]
            have := List.length_take_le MAX_RAW_OUTPUT_LINES (pySplitlines summarize_raw)
            omega
        simp only [List.length_append, List.length_cons, List.length_nil]
        omega

/-- Counterexample to C7 as stated: with a failing summarizer (exit code
1), the rendered report is *identical* whether the run had 7 parse
errors, a failed reviewer and a timed-out reviewer, or none of them —
the aggregate warnings are not surfaced in the error report; the full
output consists of the summarizer-error section only. -/
theorem C7_counterexample :
    render_report wrap0 pyStr0 fmtD0 80 emptyGrouped 1 "" "boom" 7 [2] [3]
        none [] none (some 5) true true
      = render_report wrap0 pyStr0 fmtD0 80 emptyGrouped 1 "" "boom" 0 [] []
          none [] none (some 5) true true
    ∧ render_report_lines wrap0 pyStr0 fmtD0 80 emptyGrouped 1 "" "boom" 7 [2] [3]
        none [] none (some 5) true true
      = .ok ["", Colors.RED ++ "✗ Summarizer Error" ++ Colors.RESET, get_ruler 80,
          "  Exit code: 1", "\n  " ++ Colors.DIM ++ "Raw output:" ++ Colors.RESET,
          "  " ++ Colors.DIM ++ "boom" ++ Colors.RESET] := by
  constructor
  · rfl
  · rfl

/-- Witness for C7: under a failing summarizer the rendered lines do not
depend on the warnings inputs. -/
theorem C7_witness :
    render_report_lines wrap0 pyStr0 fmtD0 80 emptyGrouped 2 "sigh" "x\ny\nz"
        3 [1] [2] none [] none (some 5) true true
      = render_report_lines wrap0 pyStr0 fmtD0 80 emptyGrouped 2 "sigh" "x\ny\nz"
          0 [] [] none [] none (some 5) true true := by
  obtain ⟨ls, hall, -, -⟩ := C7_summarizer_error_report wrap0 pyStr0 fmtD0 80
    emptyGrouped 2 "sigh" "x\ny\nz" none [] none (some 5) true true rfl (by decide)
  exact (hall 3 [1] [2]).trans (hall 0 [] []).symm

/-- Witness for C9 at a concrete permutation pair. -/
theorem C9_witness :
    List.Perm [Finding.mk " a " 2, Finding.mk "b" 1] [Finding.mk "b" 1, Finding.mk " a " 2] ∧
      ((⟨"a", [2]⟩ : AggregatedFinding) ∈ aggregate_findings [⟨" a ", 2⟩, ⟨"b", 1⟩]
        ↔ (⟨"a", [2]⟩ : AggregatedFinding) ∈ aggregate_findings [⟨"b", 1⟩, ⟨" a ", 2⟩]) :=
  ⟨List.Perm.swap _ _ _,
   C9_aggregate_findings_order_independent _ _ (List.Perm.swap _ _ _) _⟩

end CodeReview
